import Mathlib

/-!
Verification of src/shape_training/auto_label_shapes.py.

The script thresholds an HSV image per color, cleans the mask with
morphological opening and closing, filters connected components by area,
composites the three per-color masks into a label image, draws contour
overlays, and batch-processes a directory of image files.

Images are embedded as functions on Fin h × Fin w (the shape lives in the
type).  Channel values are Nat (the arrays are uint8; every operation here
stays within 0..255 so no wraparound arises).  OpenCV primitives used by
the script (inRange, bitwise_or, erode/dilate with an all-ones kernel and
the default border handling, connected components, BGR→HSV conversion) are
embedded from their documented element-wise semantics.
-/

/-- A 3-channel pixel (channel order as in the source array: BGR for input
images, (H,S,V) after conversion). -/
abbrev Pix3 := Nat × Nat × Nat

/-- An h×w 3-channel image. -/
abbrev Img (h w : Nat) := Fin h → Fin w → Pix3

/-- An h×w single-channel uint8 mask. -/
abbrev Mask (h w : Nat) := Fin h → Fin w → Nat

/-- Clamp an Int coordinate into Fin n when in bounds. -/
def mkIdx (n : Nat) (i : Int) : Option (Fin n) :=
  if h : 0 ≤ i ∧ i < (n : Int) then some ⟨i.toNat, by omega⟩ else none

/-- In-bounds pixels at Chebyshev distance ≤ rad from p (the (2·rad+1)² box,
clipped at the image border).  Used for the all-ones morphology kernels. -/
def nbrBox (h w : Nat) (rad : Nat) (p : Fin h × Fin w) : List (Fin h × Fin w) :=
  (List.range (2 * rad + 1)).flatMap fun i =>
    (List.range (2 * rad + 1)).filterMap fun j =>
      match mkIdx h ((p.1 : Int) + (i : Int) - (rad : Int)),
            mkIdx w ((p.2 : Int) + (j : Int) - (rad : Int)) with
      | some r, some c => some (r, c)
      | _, _ => none

/-- cv2.inRange: 255 where every channel lies between the corresponding
bounds (inclusive), 0 elsewhere. -/
def inRange (lo hi : Pix3) (src : Img h w) : Mask h w := fun r c =>
  let p := src r c
  if lo.1 ≤ p.1 ∧ p.1 ≤ hi.1 ∧ lo.2.1 ≤ p.2.1 ∧ p.2.1 ≤ hi.2.1 ∧
     lo.2.2 ≤ p.2.2 ∧ p.2.2 ≤ hi.2.2 then 255 else 0

/-- cv2.bitwise_or on single-channel uint8 data: element-wise bit or. -/
def bitwiseOr (m1 m2 : Mask h w) : Mask h w := fun r c => Nat.lor (m1 r c) (m2 r c)

/-- cv2.erode with an all-ones (2·rad+1)² kernel, centred anchor: minimum
over the in-bounds neighbourhood.  The default border value for erosion is
+∞ (saturating to 255 on uint8), so out-of-bounds positions do not lower
the minimum; starting the fold at 255 renders exactly that. -/
def erode (rad : Nat) (m : Mask h w) : Mask h w := fun r c =>
  ((nbrBox h w rad (r, c)).map fun q => m q.1 q.2).foldl min 255

/-- cv2.dilate with an all-ones (2·rad+1)² kernel: maximum over the
in-bounds neighbourhood (default border value −∞, i.e. 0 on uint8). -/
def dilate (rad : Nat) (m : Mask h w) : Mask h w := fun r c =>
  ((nbrBox h w rad (r, c)).map fun q => m q.1 q.2).foldl max 0

/-- cv2.morphologyEx MORPH_OPEN: erosion followed by dilation. -/
def morphOpen (rad : Nat) (m : Mask h w) : Mask h w := dilate rad (erode rad m)

/-- cv2.morphologyEx MORPH_CLOSE: dilation followed by erosion. -/
def morphClose (rad : Nat) (m : Mask h w) : Mask h w := erode rad (dilate rad m)

/-- The in-bounds 8-neighbourhood of p (Chebyshev distance exactly ≤ 1,
centre included; including the centre does not change reachability). -/
def nbrs8 (h w : Nat) (p : Fin h × Fin w) : List (Fin h × Fin w) := nbrBox h w 1 p

/-- One step of flood fill: append every foreground 8-neighbour of the
current set that is not yet present (keeping the list duplicate-free). -/
def expandOnce (m : Mask h w) (S : List (Fin h × Fin w)) : List (Fin h × Fin w) :=
  (S.flatMap (nbrs8 h w)).foldl
    (fun acc q => if m q.1 q.2 ≠ 0 ∧ q ∉ acc then acc ++ [q] else acc) S

/-- Fuelled flood fill, stopping when the set no longer grows. -/
def compAux (m : Mask h w) : Nat → List (Fin h × Fin w) → List (Fin h × Fin w)
  | 0, S => S
  | fuel + 1, S =>
    let S' := expandOnce m S
    if S'.length = S.length then S else compAux m fuel S'

/-- The 8-connected component of p in the nonzero set of m (as computed by
cv2.connectedComponentsWithStats with connectivity 8); empty for a
background pixel.  h·w steps of growth always reach the fixed point. -/
def component (m : Mask h w) (p : Fin h × Fin w) : List (Fin h × Fin w) :=
  if m p.1 p.2 ≠ 0 then compAux m (h * w) [p] else []

/-- The mantissa of the IEEE-754 binary64 value closest to the literal
0.001: that double is 4611686018427388 / 2^62 (0.001 lies in
[2^(-10), 2^(-9)), whose doubles have denominator 2^62). -/
def c001Mant : Nat := 4611686018427388

/-- The mantissa of the IEEE-754 binary64 value closest to the literal
0.7: that double is 6305039478318694 / 2^53 (0.7 lies in [2^(-1), 2^0),
whose doubles have denominator 2^53). -/
def c07Mant : Nat := 6305039478318694

/-- Fuelled base-2 logarithm: natLog2F fuel n = the floor of log2 n for
1 ≤ n < 2^fuel (fuel 4096 is ample for every quantity arising here). -/
def natLog2F : Nat → Nat → Nat
  | 0, _ => 0
  | fuel + 1, n => if 2 ≤ n then natLog2F fuel (n / 2) + 1 else 0

/-- Round N / 2^s to the nearest integer, ties to even. -/
def roundMantissa (N s : Nat) : Nat :=
  let q := N / 2 ^ s
  let r := N % 2 ^ s
  if 2 * r < 2 ^ s then q
  else if 2 ^ s < 2 * r then q + 1
  else if q % 2 = 0 then q else q + 1

/-- int(hw * c) in Python, where c is the binary64 constant M / 2^p:
hw converts to binary64 exactly (every pixel count in range is below
2^53), the product rounds the exact value hw·M / 2^p to 53 significant
bits to nearest, ties to even (no overflow or subnormals can arise), and
int() truncates the result.  Computed over exact integers: N = hw·M has
bit length b; when b ≤ 53 the product is exact, otherwise its top 53 bits
are kept after rounding. -/
def floatProdInt (hw M p : Nat) : Nat :=
  let N := hw * M
  if N = 0 then 0
  else
    let b := natLog2F 4096 N + 1
    if b ≤ 53 then N / 2 ^ p
    else
      let s := b - 53
      roundMantissa N s * 2 ^ s / 2 ^ p

/-- min_area = int((h*w) * 0.001): the integer part of the Python float
product of the pixel count with the double nearest 0.001. -/
def min_area (h w : Nat) : Nat := floatProdInt (h * w) c001Mant 62

/-- max_area = int((h*w) * 0.7). -/
def max_area (h w : Nat) : Nat := floatProdInt (h * w) c07Mant 53

/-- The component-area filter of color_mask: the loop
  for i in range(1, num): if min_area <= stats[i, AREA] <= max_area: out[cc == i] = 255
run on out = zeros_like(m).  A pixel ends at 255 exactly when it is
foreground and the pixel count of its component lies between the bounds
(stats[i, AREA] is the size of component i, and out[cc == i] sets exactly
the pixels of that component); all other pixels keep 0. -/
def areaFilter (m : Mask h w) : Mask h w := fun r c =>
  if m r c ≠ 0 ∧ min_area h w ≤ (component m (r, c)).length ∧
     (component m (r, c)).length ≤ max_area h w then 255 else 0

/-!  The fixed HSV threshold table (OpenCV: H in 0..180, S,V in 0..255). -/

def R1_L : Pix3 := (0, 80, 70)
def R1_H : Pix3 := (10, 255, 255)
def R2_L : Pix3 := (170, 80, 70)
def R2_H : Pix3 := (180, 255, 255)
def G1_L : Pix3 := (40, 70, 60)
def G1_H : Pix3 := (85, 255, 255)
def G2_L : Pix3 := (35, 70, 60)
def G2_H : Pix3 := (55, 255, 255)
def B_L : Pix3 := (95, 80, 60)
def B_H : Pix3 := (135, 255, 255)

/-- The color argument of color_mask (the source passes the strings
"red", "green" and anything else falls to the blue branch). -/
inductive ColorId | red | green | blue
deriving DecidableEq

/-- The thresholding stage of color_mask: the per-color mask m before the
morphological cleanup (red and green are the bitwise_or of two inRange
bands, blue a single band). -/
def threshMask (c : ColorId) (hsv : Img h w) : Mask h w :=
  match c with
  | .red => bitwiseOr (inRange R1_L R1_H hsv) (inRange R2_L R2_H hsv)
  | .green => bitwiseOr (inRange G1_L G1_H hsv) (inRange G2_L G2_H hsv)
  | .blue => inRange B_L B_H hsv

/-- color_mask(hsv, color): threshold, open with the 5×5 ones kernel
(radius 2), close with the 7×7 ones kernel (radius 3), then keep only the
connected components of reasonable area. -/
def color_mask (hsv : Img h w) (c : ColorId) : Mask h w :=
  areaFilter (morphClose 3 (morphOpen 2 (threshMask c hsv)))

/-- The label code table {"red": 1, "green": 2, "blue": 3}. -/
def LABELS : ColorId → Nat
  | .red => 1 | .green => 2 | .blue => 3

/-- cv2.cvtColor BGR→HSV for 8-bit data, from the OpenCV documentation:
V = max channel, S = 255·(V−min)/V rounded (0 when V = 0), H = half the
60°-based hue, wrapped into [0,180).  No claim depends on this conversion;
it is included so that label_image is the full function of the source. -/
def cvtColorBGR2HSV (img : Img h w) : Img h w := fun r c =>
  let p := img r c
  let b := p.1
  let g := p.2.1
  let rr := p.2.2
  let v := max b (max g rr)
  let mn := min b (min g rr)
  let d := v - mn
  let s := if v = 0 then 0 else (255 * d + v / 2) / v
  let hRaw : Int :=
    if d = 0 then 0
    else if v = rr then 30 * ((g : Int) - (b : Int)) / (d : Int)
    else if v = g then 60 + 30 * ((b : Int) - (rr : Int)) / (d : Int)
    else 120 + 30 * ((rr : Int) - (g : Int)) / (d : Int)
  ((if hRaw < 0 then hRaw + 180 else hRaw).toNat, s, v)

/-- The compositing step of label_image (its last four statements):
  lab = zeros; lab[mask_r > 0] = 1; lab[mask_g > 0] = 2; lab[mask_b > 0] = 3
as sequential whole-array writes: each assignment overwrites whatever an
earlier one put at a pixel its own mask claims. -/
def label_comp (mr mg mb : Mask h w) : Mask h w := fun r c =>
  let l0 : Nat := 0
  let l1 := if 0 < mr r c then LABELS .red else l0
  let l2 := if 0 < mg r c then LABELS .green else l1
  if 0 < mb r c then LABELS .blue else l2

/-- label_image(img_bgr): convert to HSV, build the three color masks,
composite them into a single label image. -/
def label_image (img : Img h w) : Mask h w :=
  let hsv := cvtColorBGR2HSV img
  label_comp (color_mask hsv .red) (color_mask hsv .green) (color_mask hsv .blue)

/-!  draw_overlay.  cv2.findContours(…, RETR_EXTERNAL, CHAIN_APPROX_SIMPLE)
followed by cv2.drawContours(overlay, cnts, -1, color, 3) recolours a set
of pixels along the boundary of the thresholded region; we embed the drawn
set as the pixels within Chebyshev distance 1 of a boundary pixel of the
region lab == val (a boundary pixel is a region pixel with an 8-neighbour
outside the region or outside the image — thickness 3 strokes the external
contour with a 3-wide pen).  The frame claim proved about draw_overlay
holds for any drawn set: every output pixel is either the copied input
pixel or one of the three stroke colors. -/

/-- Is p on the external boundary of the set of pixels where lab = val? -/
def onBoundary (lab : Mask h w) (val : Nat) (p : Fin h × Fin w) : Bool :=
  lab p.1 p.2 = val ∧
    ((List.range 3).flatMap fun i => (List.range 3).map fun j =>
        ((p.1 : Int) + (i : Int) - 1, (p.2 : Int) + (j : Int) - 1)).any
      fun q =>
        match mkIdx h q.1, mkIdx w q.2 with
        | some r, some c => decide (lab r c ≠ val)
        | _, _ => true

/-- Is p recoloured when the contours of lab == val are drawn with
thickness 3: within Chebyshev distance 1 of a boundary pixel. -/
def inDrawn (lab : Mask h w) (val : Nat) (p : Fin h × Fin w) : Bool :=
  (nbrBox h w 1 p).any fun q => onBoundary lab val q

/-- draw_overlay(img, lab): copy img, then for (1, red), (2, green),
(3, blue) in that order draw the external contours of lab == val in the
given BGR color with thickness 3 on the copy, and return the copy. -/
def draw_overlay (img : Img h w) (lab : Mask h w) : Img h w :=
  [(1, ((0, 0, 255) : Pix3)), (2, (0, 255, 0)), (3, (255, 0, 0))].foldl
    (fun overlay vc => fun r c => if inDrawn lab vc.1 (r, c) then vc.2 else overlay r c)
    img

/-!  The batch driver main().  The filesystem interaction is embedded as
data: the directory listing is a list of names, and cv2.imread is an
oracle from paths to optionally decoded images (None models a file that
fails to decode).  Report entries keep the two fields the claims concern
(path and status); the numeric field area_frac and the three artifact-path
fields of an ok entry, and the written file contents, are elided — every
claim about the batch concerns only which paths get written and the
sequence of (path, status) pairs. -/

/-- An image of unknown shape, as returned by cv2.imread on success. -/
def ImgT := Σ h w : Nat, Img h w

/-- The extension allow-list of main(). -/
def EXTS : List String :=
  [".jpg", ".jpeg", ".png", ".JPG", ".JPEG", ".PNG", ".heic", ".HEIC"]

/-- name.endswith(exts): exact case-sensitive suffix match against any
entry of the tuple. -/
def allowName (name : String) : Bool := EXTS.any fun e => e.data.isSuffixOf name.data

/-- os.path.join for the relative paths the script builds. -/
def pathJoin (a b : String) : String := a ++ "/" ++ b

/-- os.path.splitext(name)[0]: the name with everything from the last dot
removed (the whole name when it has no dot). -/
def splitextBase (name : String) : String :=
  match (name.data.reverse).dropWhile (fun ch => ch ≠ '.') with
  | [] => name
  | _ :: rest => ⟨rest.reverse⟩

/-- One report.json entry, restricted to the fields the claims concern. -/
structure ReportEntry where
  path : String
  status : String
deriving DecidableEq

/-- The observable outcome of a run: the report sequence and the list of
artifact paths passed to cv2.imwrite, in order. -/
structure BatchOut where
  report : List ReportEntry
  writes : List String
deriving DecidableEq

/-- The three artifact paths written for a successfully decoded file. -/
def artifactPaths (out_dir name : String) : List String :=
  let base := splitextBase name
  [pathJoin (pathJoin out_dir "masks_shape") (base ++ "_shape.png"),
   pathJoin (pathJoin out_dir "overlays") (base ++ "_overlay.jpg"),
   pathJoin (pathJoin out_dir "grayscale") (base ++ "_gray.png")]

/-- One iteration of the loop of main(): skip a name outside the
allow-list; on decode failure append a read_fail entry and nothing else;
on success write the three artifacts and append an ok entry. -/
def processOne (decode : String → Option ImgT) (in_dir out_dir name : String) : BatchOut :=
  if allowName name then
    let path := pathJoin in_dir name
    match decode path with
    | none => ⟨[⟨path, "read_fail"⟩], []⟩
    | some _ => ⟨[⟨path, "ok"⟩], artifactPaths out_dir name⟩
  else ⟨[], []⟩

/-- The loop of main() over an already ordered list of names. -/
def runFiles (decode : String → Option ImgT) (in_dir out_dir : String) :
    List String → BatchOut
  | [] => ⟨[], []⟩
  | n :: ns =>
    let o := processOne decode in_dir out_dir n
    let rest := runFiles decode in_dir out_dir ns
    ⟨o.report ++ rest.report, o.writes ++ rest.writes⟩

/-- Code-point lexicographic comparison of character lists: Python's str
comparison, by which sorted() orders the names. -/
def charListLe : List Char → List Char → Bool
  | [], _ => true
  | _ :: _, [] => false
  | a :: as, b :: bs =>
    if a.toNat < b.toNat then true
    else if b.toNat < a.toNat then false
    else charListLe as bs

/-- The order sorted() uses on file names. -/
def strLe (a b : String) : Prop := charListLe a.data b.data = true

instance : DecidableRel strLe :=
  fun a b => inferInstanceAs (Decidable (charListLe a.data b.data = true))

/-- main(): iterate over sorted(os.listdir(in_dir)) — the listing sorted
lexicographically by code point, which is what Python's sorted() does on
str. -/
def runBatch (decode : String → Option ImgT) (in_dir out_dir : String)
    (listing : List String) : BatchOut :=
  runFiles decode in_dir out_dir (listing.insertionSort strLe)

/-- The single report entry main() appends for an allow-listed name. -/
def entryFor (decode : String → Option ImgT) (in_dir name : String) : ReportEntry :=
  match decode (pathJoin in_dir name) with
  | none => ⟨pathJoin in_dir name, "read_fail"⟩
  | some _ => ⟨pathJoin in_dir name, "ok"⟩

/-- The artifact paths main() writes for an allow-listed name: none when
the decode fails, the three artifacts when it succeeds. -/
def writesFor (decode : String → Option ImgT) (in_dir out_dir name : String) : List String :=
  match decode (pathJoin in_dir name) with
  | none => []
  | some _ => artifactPaths out_dir name

/-!  Concrete inputs used by counterexamples, instances and witnesses. -/

/-- A 3×3 block in the corner of a 96×99 frame (9504 pixels).  This shape
is stable under the morphological cleanup (a 3×3 corner block survives the
5×5 opening thanks to the clipped border neighbourhood and is restored
unchanged by the 7×7 closing), so it is a reachable post-cleanup mask with
a component of area 9, while 0.001·9504 = 9.504. -/
def maskCorner3 : Mask 96 99 := fun r c => if r.val ≤ 2 ∧ c.val ≤ 2 then 255 else 0

/-- A single-pixel blob in a 40×50 frame: 1 pixel = 0.05% of 2000. -/
def blobA : Mask 40 50 := fun r c => if r.val = 0 ∧ c.val = 0 then 255 else 0

/-- A single-pixel blob in a 5×4 frame: 1 pixel = 5% of 20. -/
def blobB : Mask 5 4 := fun r c => if r.val = 0 ∧ c.val = 0 then 255 else 0

/-- A 4×2 blob in a 5×2 frame: 8 pixels = 80% of 10. -/
def blobC : Mask 5 2 := fun r _ => if r.val ≤ 3 then 255 else 0

/-- A 1×1 mask claiming its pixel (the red mask of the C1 overlap). -/
def cMaskR : Mask 1 1 := fun _ _ => 255

/-- A 1×1 mask claiming its pixel (the green mask of the C1 overlap). -/
def cMaskG : Mask 1 1 := fun _ _ => 255

/-- An empty 1×1 mask (the blue mask of the C1 overlap). -/
def cMaskB : Mask 1 1 := fun _ _ => 0

/-- A 1×1 HSV image whose pixel has hue 0 and saturation/value 100. -/
def imgHue0 : Img 1 1 := fun _ _ => (0, 100, 100)

/-- A 1×1 HSV image whose pixel has hue 179 and saturation/value 100. -/
def imgHue179 : Img 1 1 := fun _ _ => (179, 100, 100)

/-- A 1×1 HSV image whose pixel has hue 90 and saturation/value 100. -/
def imgHue90 : Img 1 1 := fun _ _ => (90, 100, 100)

/-- A decoded 1×1 image, standing in for any successful cv2.imread. -/
def dummyImg : ImgT := ⟨1, 1, fun _ _ => (0, 0, 0)⟩

/-- A decode oracle under which every file reads fine except in/c.png
(the corrupt allow-listed file of the C4 scenario). -/
def decode31 : String → Option ImgT :=
  fun p => if p = "in/c.png" then none else some dummyImg

/-- The directory listing of the C4 scenario: three valid images and one
corrupt file. -/
def listing31 : List String := ["a.png", "b.png", "c.png", "d.png"]

/-- A decode oracle under which every file decodes. -/
def decodeAll : String → Option ImgT := fun _ => some dummyImg

/-!  Helper lemmas shared by the claim theorems. -/

theorem processOne_report (decode : String → Option ImgT) (i o n : String) :
    (processOne decode i o n).report =
      if allowName n then [entryFor decode i n] else [] := by
  unfold processOne entryFor
  dsimp only
  split
  · cases decode (pathJoin i n) <;> rfl
  · rfl

theorem processOne_writes (decode : String → Option ImgT) (i o n : String) :
    (processOne decode i o n).writes =
      if allowName n then writesFor decode i o n else [] := by
  unfold processOne writesFor
  dsimp only
  split
  · cases decode (pathJoin i n) <;> rfl
  · rfl

theorem runFiles_report (decode : String → Option ImgT) (i o : String) (l : List String) :
    (runFiles decode i o l).report = (l.filter allowName).map (entryFor decode i) := by
  induction l with
  | nil => rfl
  | cons n ns ih =>
    show (processOne decode i o n).report ++ (runFiles decode i o ns).report = _
    rw [processOne_report, ih, List.filter_cons]
    split
    · simp
    · simp

theorem runFiles_writes (decode : String → Option ImgT) (i o : String) (l : List String) :
    (runFiles decode i o l).writes = (l.filter allowName).flatMap (writesFor decode i o) := by
  induction l with
  | nil => rfl
  | cons n ns ih =>
    show (processOne decode i o n).writes ++ (runFiles decode i o ns).writes = _
    rw [processOne_writes, ih, List.filter_cons]
    split
    · simp
    · simp

theorem entryFor_path (decode : String → Option ImgT) (i n : String) :
    (entryFor decode i n).path = pathJoin i n := by
  unfold entryFor
  cases decode (pathJoin i n) <;> rfl

theorem lorIte_ne_zero (a b : Prop) [Decidable a] [Decidable b] :
    Nat.lor (if a then 255 else 0) (if b then 255 else 0) ≠ 0 ↔ a ∨ b := by
  by_cases ha : a <;> by_cases hb : b <;> (simp [ha, hb]; try rfl)

theorem ite255_ne_zero (a : Prop) [Decidable a] :
    (if a then (255 : Nat) else 0) ≠ 0 ↔ a := by
  by_cases ha : a <;> simp [ha]

/-!  The claims. -/

set_option maxRecDepth 10000

/-- C1 counterexample: at a pixel claimed by both the red and the green
mask, the compositing of label_image does not hold code 1 (red): the
sequential writes lab[mask_r > 0] = 1; lab[mask_g > 0] = 2; lab[mask_b > 0] = 3
let the later green write overwrite the earlier red one, so the pixel
holds 2. -/
theorem C1_counterexample :
    cMaskR 0 0 ≠ 0 ∧ cMaskG 0 0 ≠ 0 ∧
      label_comp cMaskR cMaskG cMaskB 0 0 = 2 ∧
      label_comp cMaskR cMaskG cMaskB 0 0 ≠ 1 := by
  decide

/-- C1 (amended): compositing precedence runs the other way round: a pixel
claimed by a later color in the write order red, green, blue overwrites
any earlier claim, so at a pixel where both the red and the green mask are
nonzero (and the blue mask is zero) the composited LabelImage holds code 2
(green), not 1; blue would likewise override both. -/
theorem C1_later_color_overrides (h w : Nat) (mr mg mb : Mask h w)
    (r : Fin h) (c : Fin w) (_hr : mr r c ≠ 0) (hg : mg r c ≠ 0) (hb : mb r c = 0) :
    label_comp mr mg mb r c = 2 := by
  have hg' : 0 < mg r c := Nat.pos_of_ne_zero hg
  simp [label_comp, LABELS, hb, hg']

/-- C1 witness: the amended theorem applied to the concrete 1×1 overlap of
the red and green masks. -/
theorem C1_witness : label_comp cMaskR cMaskG cMaskB 0 0 = 2 :=
  C1_later_color_overrides 1 1 cMaskR cMaskG cMaskB 0 0
    (by decide) (by decide) (by decide)

/-- C2 counterexample: the claimed exact bound 0.001·H·W is not what the
code enforces — the code truncates the bounds with int().  On a 96×99
frame (9504 pixels, claimed lower bound 9.504) the corner component of 9
pixels survives the filter (min_area = int(9.504…) = 9 ≤ 9), although
9.504 ≤ 9 is false, so the claimed "survives only if 0.001·H·W ≤ area"
fails.  The mask is stable under the morphological cleanup, so the input
is reachable in the full pipeline. -/
theorem C2_counterexample :
    areaFilter maskCorner3 ⟨0, by omega⟩ ⟨0, by omega⟩ = 255 ∧
      (component maskCorner3 (⟨0, by omega⟩, ⟨0, by omega⟩)).length = 9 ∧
      ¬ ((1 : ℚ) / 1000 * (96 * 99) ≤
          ((component maskCorner3 (⟨0, by omega⟩, ⟨0, by omega⟩)).length : ℚ)) := by
  refine ⟨by decide, by decide, ?_⟩
  have h9 : (component maskCorner3 (⟨0, by omega⟩, ⟨0, by omega⟩)).length = 9 := by decide
  rw [h9]
  norm_num

/-- C2 (amended): after morphological cleanup a connected component
(8-connectivity) survives the area filter iff its pixel area a satisfies
min_area ≤ a ≤ max_area with both bounds inclusive, where
min_area = int(0.001·H·W) and max_area = int(0.7·H·W) are the Python
float products truncated to integers (not the exact real products); the
synthetic instances hold as claimed: a blob of exactly 0.05% of the frame
is removed (1 pixel in 40×50), one of 5% is kept (1 pixel in 5×4), one of
80% is removed (8 pixels in 5×2). -/
theorem C2_area_filter_truncated_bounds :
    (∀ (h w : Nat) (m : Mask h w) (r : Fin h) (c : Fin w),
        areaFilter m r c = 255 ↔
          m r c ≠ 0 ∧ min_area h w ≤ (component m (r, c)).length ∧
            (component m (r, c)).length ≤ max_area h w) ∧
    areaFilter blobA ⟨0, by omega⟩ ⟨0, by omega⟩ = 0 ∧
    areaFilter blobB ⟨0, by omega⟩ ⟨0, by omega⟩ = 255 ∧
    areaFilter blobC ⟨0, by omega⟩ ⟨0, by omega⟩ = 0 := by
  refine ⟨fun h w m r c => ?_, by decide, by decide, by decide⟩
  unfold areaFilter
  split
  case isTrue hc => exact iff_of_true rfl hc
  case isFalse hc => exact iff_of_false (by decide) hc

/-- C3: at the thresholding stage, a pixel of hue 0 and a pixel of hue 179
(the maximum the BGR→HSV conversion emits) with saturation in [80,255] and
value in [70,255] are both accepted by the red mask — the red acceptance
region is the union of the two inclusive bands [0,10] and [170,180] — but
a pixel of hue 90 with the same saturation and value is rejected. -/
theorem C3_red_wraparound (h w : Nat) (hsv : Img h w) (r : Fin h) (c : Fin w)
    (s v : Nat) (hs1 : 80 ≤ s) (hs2 : s ≤ 255) (hv1 : 70 ≤ v) (hv2 : v ≤ 255) :
    (hsv r c = (0, s, v) → threshMask .red hsv r c = 255) ∧
    (hsv r c = (179, s, v) → threshMask .red hsv r c = 255) ∧
    (hsv r c = (90, s, v) → threshMask .red hsv r c = 0) := by
  refine ⟨fun hp => ?_, fun hp => ?_, fun hp => ?_⟩ <;>
    simp only [threshMask, bitwiseOr, inRange, hp, R1_L, R1_H, R2_L, R2_H] <;>
    norm_num <;>
    first
      | rfl
      | (rw [if_pos (by omega)]; rfl)

/-- C3 witness: the theorem applied to concrete 1×1 HSV images of hue 0,
179 and 90 at saturation and value 100. -/
theorem C3_witness :
    threshMask .red imgHue0 0 0 = 255 ∧ threshMask .red imgHue179 0 0 = 255 ∧
      threshMask .red imgHue90 0 0 = 0 :=
  ⟨(C3_red_wraparound 1 1 imgHue0 0 0 100 100 (by decide) (by decide) (by decide)
      (by decide)).1 rfl,
   (C3_red_wraparound 1 1 imgHue179 0 0 100 100 (by decide) (by decide) (by decide)
      (by decide)).2.1 rfl,
   (C3_red_wraparound 1 1 imgHue90 0 0 100 100 (by decide) (by decide) (by decide)
      (by decide)).2.2 rfl⟩

/-- C4: for every allow-listed file whose decode fails, the loop appends
exactly one read_fail report entry, writes no artifact, and continues with
the next file; in the concrete batch of three valid images and one corrupt
allow-listed file the report has four entries (three ok, one read_fail) and
the artifacts are written for exactly the three valid images. -/
theorem C4_partial_failure :
    (∀ (decode : String → Option ImgT) (i o name : String),
        allowName name = true → decode (pathJoin i name) = none →
        processOne decode i o name = ⟨[⟨pathJoin i name, "read_fail"⟩], []⟩) ∧
    (runBatch decode31 "in" "out" listing31).report =
      [⟨"in/a.png", "ok"⟩, ⟨"in/b.png", "ok"⟩, ⟨"in/c.png", "read_fail"⟩,
       ⟨"in/d.png", "ok"⟩] ∧
    (runBatch decode31 "in" "out" listing31).writes =
      artifactPaths "out" "a.png" ++ artifactPaths "out" "b.png" ++
        artifactPaths "out" "d.png" := by
  refine ⟨fun decode i o name ha hd => ?_, ?_, ?_⟩
  · simp [processOne, ha, hd]
  · rfl
  · rfl

/-- C4 witness: the per-file clause of the theorem applied to the corrupt
file of the concrete batch. -/
theorem C4_witness :
    processOne decode31 "in" "out" "c.png" = ⟨[⟨"in/c.png", "read_fail"⟩], []⟩ :=
  C4_partial_failure.1 decode31 "in" "out" "c.png" (by decide) rfl

theorem charListLe_total : ∀ as bs : List Char,
    charListLe as bs = true ∨ charListLe bs as = true
  | [], _ => Or.inl rfl
  | _ :: _, [] => Or.inr rfl
  | a :: as, b :: bs => by
    by_cases h1 : a.toNat < b.toNat
    · left; simp [charListLe, h1]
    · by_cases h2 : b.toNat < a.toNat
      · right; simp [charListLe, h2]
      · have h3 := charListLe_total as bs
        simpa [charListLe, h1, h2] using h3

theorem charListLe_trans : ∀ as bs cs : List Char,
    charListLe as bs = true → charListLe bs cs = true → charListLe as cs = true
  | [], _, _, _, _ => rfl
  | _ :: _, [], _, h1, _ => by simp [charListLe] at h1
  | _ :: _, _ :: _, [], _, h2 => by simp [charListLe] at h2
  | a :: as, b :: bs, c :: cs, h1, h2 => by
    simp only [charListLe] at h1 h2 ⊢
    split at h1
    case isTrue hab =>
      split at h2
      case isTrue hbc => rw [if_pos (by omega)]
      case isFalse hbc =>
        split at h2
        case isTrue hcb => simp at h2
        case isFalse hcb => rw [if_pos (by omega)]
    case isFalse hab =>
      split at h1
      case isTrue hba => simp at h1
      case isFalse hba =>
        split at h2
        case isTrue hbc => rw [if_pos (by omega)]
        case isFalse hbc =>
          split at h2
          case isTrue hcb => simp at h2
          case isFalse hcb =>
            rw [if_neg (by omega), if_neg (by omega)]
            exact charListLe_trans as bs cs h1 h2

theorem charListLe_antisymm : ∀ as bs : List Char,
    charListLe as bs = true → charListLe bs as = true → as = bs
  | [], [], _, _ => rfl
  | [], _ :: _, _, h2 => by simp [charListLe] at h2
  | _ :: _, [], h1, _ => by simp [charListLe] at h1
  | a :: as, b :: bs, h1, h2 => by
    simp only [charListLe] at h1 h2
    by_cases hab : a.toNat < b.toNat
    · have hba : ¬ b.toNat < a.toNat := Nat.lt_asymm hab
      rw [if_neg hba, if_pos hab] at h2
      simp at h2
    · by_cases hba : b.toNat < a.toNat
      · rw [if_neg hab, if_pos hba] at h1
        simp at h1
      · have hc : a = b :=
          Char.eq_of_val_eq (UInt32.eq_of_toBitVec_eq (BitVec.eq_of_toNat_eq
            (Nat.le_antisymm (Nat.le_of_not_lt hba) (Nat.le_of_not_lt hab))))
        rw [if_neg hab, if_neg hba] at h1
        rw [if_neg hba, if_neg hab] at h2
        rw [hc, charListLe_antisymm as bs h1 h2]

/-- C5: the report sequence depends only on the set of names the listing
holds, not on the order the filesystem returns them (main sorts the
listing before iterating), the entries appear in the code-point
lexicographic order of the file names, and for the listing b.png, a.png,
c.png the entries appear in the order a.png, b.png, c.png. -/
theorem C5_batch_order (decode : String → Option ImgT) (i o : String)
    (l₁ l₂ : List String) (hp : l₁.Perm l₂) :
    runBatch decode i o l₁ = runBatch decode i o l₂ ∧
      (∃ ns : List String, List.Sorted strLe ns ∧
        (runBatch decode i o l₁).report = ns.map (entryFor decode i)) ∧
      (runBatch decode i o ["b.png", "a.png", "c.png"]).report.map ReportEntry.path =
        [pathJoin i "a.png", pathJoin i "b.png", pathJoin i "c.png"] := by
  haveI : IsTrans String strLe := ⟨fun a b c => charListLe_trans a.data b.data c.data⟩
  haveI : IsTotal String strLe := ⟨fun a b => charListLe_total a.data b.data⟩
  haveI : IsAntisymm String strLe := ⟨fun a b h1 h2 => by
    have h3 := charListLe_antisymm a.data b.data h1 h2
    cases a; cases b; exact congrArg String.mk h3⟩
  have hs : l₁.insertionSort strLe = l₂.insertionSort strLe :=
    List.eq_of_perm_of_sorted
      ((List.perm_insertionSort strLe l₁).trans (hp.trans (List.perm_insertionSort strLe l₂).symm))
      (List.sorted_insertionSort strLe l₁) (List.sorted_insertionSort strLe l₂)
  refine ⟨by unfold runBatch; rw [hs],
    ⟨(l₁.insertionSort strLe).filter allowName,
      List.Pairwise.filter allowName (List.sorted_insertionSort strLe l₁),
      runFiles_report decode i o (l₁.insertionSort strLe)⟩, ?_⟩
  have hsort : (["b.png", "a.png", "c.png"] : List String).insertionSort strLe
      = ["a.png", "b.png", "c.png"] := by decide
  have hfa : allowName "a.png" = true := by decide
  have hfb : allowName "b.png" = true := by decide
  have hfc : allowName "c.png" = true := by decide
  unfold runBatch
  rw [hsort, runFiles_report]
  simp [List.filter_cons, hfa, hfb, hfc, entryFor_path]

/-- C5 witness: the theorem applied to a concrete permuted pair of
listings. -/
theorem C5_witness :
    runBatch decodeAll "in" "out" ["b.png", "a.png"] =
      runBatch decodeAll "in" "out" ["a.png", "b.png"] :=
  (C5_batch_order decodeAll "in" "out" _ _ (List.Perm.swap "a.png" "b.png" [])).1

/-- C6: for every (HSV) 8-bit image and every colorId, every pixel of the
color_mask output is 0 or 255 — surviving components at 255, everything
else 0.  The output has the same height and width as the input by
construction (both live on Fin h × Fin w), and the embedding is a pure
function of the image, the colorId and the fixed threshold table, so the
computation has no side effects. -/
theorem C6_color_mask_binary (h w : Nat) (hsv : Img h w) (c : ColorId)
    (r : Fin h) (q : Fin w) :
    color_mask hsv c r q = 0 ∨ color_mask hsv c r q = 255 := by
  unfold color_mask areaFilter
  split
  · exact Or.inr rfl
  · exact Or.inl rfl

/-- C7: a directory entry contributes to the run exactly when its name
ends (case-sensitively) in one of the eight allow-listed suffixes: the
report paths are precisely the joined paths of the allow-listed names of
the sorted listing, the written artifacts come only from allow-listed
names, and a skipped name (for example one ending in .Jpg, or a non-image
file) leaves no trace — the report is a census of allow-listed names only. -/
theorem C7_extension_census :
    (∀ (decode : String → Option ImgT) (i o : String) (l : List String),
        (runBatch decode i o l).report.map ReportEntry.path =
          ((l.insertionSort strLe).filter allowName).map (pathJoin i) ∧
        (runBatch decode i o l).writes =
          ((l.insertionSort strLe).filter allowName).flatMap (writesFor decode i o)) ∧
    allowName "photo.Jpg" = false ∧ allowName "notes.txt" = false ∧
    allowName "photo.jpg" = true ∧ allowName "photo.jpeg" = true ∧
    allowName "photo.png" = true ∧ allowName "photo.JPG" = true ∧
    allowName "photo.JPEG" = true ∧ allowName "photo.PNG" = true ∧
    allowName "photo.heic" = true ∧ allowName "photo.HEIC" = true := by
  refine ⟨fun decode i o l => ⟨?_, ?_⟩, by decide, by decide, by decide, by decide,
    by decide, by decide, by decide, by decide, by decide, by decide⟩
  · unfold runBatch
    rw [runFiles_report, List.map_map]
    exact List.map_congr_left fun n _ => entryFor_path decode i n
  · unfold runBatch
    exact runFiles_writes decode i o (l.insertionSort strLe)

/-- C8: at the thresholding stage the hue acceptance regions of the three
colors are exactly red [0,10] ∪ [170,180], green [35,85] (the union of the
bands [40,85] and [35,55]) and blue [95,135], each with its saturation and
value gates, and they are pairwise disjoint: no HSV pixel is accepted by
two colors before the morphological operations (overlap of the final
masks can only be produced by dilation or closing). -/
theorem C8_threshold_disjoint (h w : Nat) (hsv : Img h w) (r : Fin h) (c : Fin w) :
    (threshMask .red hsv r c ≠ 0 ↔
      ((hsv r c).1 ≤ 10 ∨ (170 ≤ (hsv r c).1 ∧ (hsv r c).1 ≤ 180)) ∧
        80 ≤ (hsv r c).2.1 ∧ (hsv r c).2.1 ≤ 255 ∧
        70 ≤ (hsv r c).2.2 ∧ (hsv r c).2.2 ≤ 255) ∧
    (threshMask .green hsv r c ≠ 0 ↔
      (35 ≤ (hsv r c).1 ∧ (hsv r c).1 ≤ 85) ∧
        70 ≤ (hsv r c).2.1 ∧ (hsv r c).2.1 ≤ 255 ∧
        60 ≤ (hsv r c).2.2 ∧ (hsv r c).2.2 ≤ 255) ∧
    (threshMask .blue hsv r c ≠ 0 ↔
      (95 ≤ (hsv r c).1 ∧ (hsv r c).1 ≤ 135) ∧
        80 ≤ (hsv r c).2.1 ∧ (hsv r c).2.1 ≤ 255 ∧
        60 ≤ (hsv r c).2.2 ∧ (hsv r c).2.2 ≤ 255) ∧
    ¬ (threshMask .red hsv r c ≠ 0 ∧ threshMask .green hsv r c ≠ 0) ∧
    ¬ (threshMask .red hsv r c ≠ 0 ∧ threshMask .blue hsv r c ≠ 0) ∧
    ¬ (threshMask .green hsv r c ≠ 0 ∧ threshMask .blue hsv r c ≠ 0) := by
  have hR : threshMask .red hsv r c ≠ 0 ↔
      ((hsv r c).1 ≤ 10 ∨ (170 ≤ (hsv r c).1 ∧ (hsv r c).1 ≤ 180)) ∧
        80 ≤ (hsv r c).2.1 ∧ (hsv r c).2.1 ≤ 255 ∧
        70 ≤ (hsv r c).2.2 ∧ (hsv r c).2.2 ≤ 255 := by
    simp only [threshMask, bitwiseOr, inRange, R1_L, R1_H, R2_L, R2_H]
    rw [lorIte_ne_zero]
    constructor
    · rintro (hb | hb) <;> exact ⟨by omega, by omega, by omega, by omega, by omega⟩
    · rintro ⟨hh | hh, hrest⟩
      · exact Or.inl (by omega)
      · exact Or.inr (by omega)
  have hG : threshMask .green hsv r c ≠ 0 ↔
      (35 ≤ (hsv r c).1 ∧ (hsv r c).1 ≤ 85) ∧
        70 ≤ (hsv r c).2.1 ∧ (hsv r c).2.1 ≤ 255 ∧
        60 ≤ (hsv r c).2.2 ∧ (hsv r c).2.2 ≤ 255 := by
    simp only [threshMask, bitwiseOr, inRange, G1_L, G1_H, G2_L, G2_H]
    rw [lorIte_ne_zero]
    constructor
    · rintro (hb | hb) <;> exact ⟨⟨by omega, by omega⟩, by omega, by omega, by omega, by omega⟩
    · rintro ⟨⟨hh1, hh2⟩, hrest⟩
      by_cases h40 : 40 ≤ (hsv r c).1
      · exact Or.inl (by omega)
      · exact Or.inr (by omega)
  have hB : threshMask .blue hsv r c ≠ 0 ↔
      (95 ≤ (hsv r c).1 ∧ (hsv r c).1 ≤ 135) ∧
        80 ≤ (hsv r c).2.1 ∧ (hsv r c).2.1 ≤ 255 ∧
        60 ≤ (hsv r c).2.2 ∧ (hsv r c).2.2 ≤ 255 := by
    simp only [threshMask, inRange, B_L, B_H]
    rw [ite255_ne_zero]
    omega
  refine ⟨hR, hG, hB, ?_, ?_, ?_⟩
  · rw [hR, hG]; rintro ⟨⟨h1, _⟩, ⟨h2, _⟩⟩; omega
  · rw [hR, hB]; rintro ⟨⟨h1, _⟩, ⟨h2, _⟩⟩; omega
  · rw [hG, hB]; rintro ⟨⟨h1, _⟩, ⟨h2, _⟩⟩; omega

/-- C9: color_mask is a deterministic function of the image, the colorId
and the fixed threshold table: its output depends only on the pixel values
of the input, so two evaluations on the same input are bit-identical — the
embedding is a pure function and the source calls no randomness. -/
theorem C9_color_mask_deterministic (h w : Nat) (img₁ img₂ : Img h w) (c : ColorId)
    (hp : ∀ (r : Fin h) (q : Fin w), img₁ r q = img₂ r q) (r : Fin h) (q : Fin w) :
    color_mask img₁ c r q = color_mask img₂ c r q := by
  have he : img₁ = img₂ := funext fun a => funext fun b => hp a b
  rw [he]

/-- C9 witness: the theorem applied to a concrete 1×1 image given twice. -/
theorem C9_witness :
    color_mask imgHue0 .red 0 0 = color_mask imgHue0 .red 0 0 :=
  C9_color_mask_deterministic 1 1 imgHue0 imgHue0 .red (fun _ _ => rfl) 0 0

/-- C10: draw_overlay draws only on a copy: every pixel of the returned
image is either the corresponding pixel of the input image or one of the
three BGR stroke colors (0,0,255), (0,255,0), (255,0,0).  The output lives
on the same Fin h × Fin w grid with the same three-channel pixels as the
input (same shape and channel depth), and the embedding being a pure
function, the input image and the label image are left unchanged. -/
theorem C10_overlay_frame (h w : Nat) (img : Img h w) (lab : Mask h w)
    (r : Fin h) (c : Fin w) :
    draw_overlay img lab r c = img r c ∨
      draw_overlay img lab r c = (0, 0, 255) ∨
      draw_overlay img lab r c = (0, 255, 0) ∨
      draw_overlay img lab r c = (255, 0, 0) := by
  by_cases h3 : inDrawn lab 3 (r, c) <;> by_cases h2 : inDrawn lab 2 (r, c) <;>
    by_cases h1 : inDrawn lab 1 (r, c) <;>
      simp [draw_overlay, h1, h2, h3]
